import Mathlib

/-!
Shallow embedding of the Real-Time-Crowd-Management-System backend
(`backend/server.js` and the Mongoose `Zone` model).

Modelling conventions:
* JS numbers are modelled as exact rationals (`ℚ`); integer-valued
  quantities (populations, densities, cluster ids, timestamps in
  milliseconds) as `ℤ`/`ℕ`.  `Math.floor` is `Int.floor`.
* External collaborators are oracles: `Math.random()` is a supplied
  stream `rand : ℕ → ℚ` consumed in call order (three draws per zone:
  variance, x, y); `new Date()` is a supplied timestamp `now`; the
  `density-clustering` library's `dbscan.run` result is a supplied
  `clusters : List (List ℕ)` (each cluster a list of point indices);
  MongoDB is a list of readings in append order plus a failure oracle.
* Socket.IO emissions are recorded explicitly as an `Emit` event list.
-/

/-- A zone of the static campus registry (`ZONES` in `server.js`). -/
structure Zone where
  id : String
  name : String
  capacity : ℕ
deriving DecidableEq

/-- The static campus zone registry (`ZONES` in `server.js`). -/
def ZONES : List Zone :=
  [ { id := "AB1", name := "AB1", capacity := 5880 }
  , { id := "AB2", name := "AB2", capacity := 250 }
  , { id := "AB3", name := "AB3", capacity := 5880 }
  , { id := "AB4", name := "AB4", capacity := 5880 }
  , { id := "Library", name := "Library", capacity := 300 }
  , { id := "Admin", name := "Admin Block", capacity := 250 }
  , { id := "North", name := "North Square", capacity := 200 }
  , { id := "Gazebo", name := "Gazebo", capacity := 200 }
  , { id := "MBA", name := "MBA Amphitheater", capacity := 150 } ]

/-- One simulated signal, as built by `generateNetworkActivity`. -/
structure Signal where
  zoneId : String
  zoneName : String
  population : ℤ
  capacity : ℕ
  coordinates : ℚ × ℚ
deriving DecidableEq

/-- A classified reading, as built by `applyDBSCAN` and persisted via
`Zone.insertMany` (fields of the Mongoose `Zone` schema). -/
structure Reading where
  zoneId : String
  zoneName : String
  population : ℤ
  density : ℤ
  cluster : ℤ
  capacity : ℕ
  status : String
  timestamp : ℤ
deriving DecidableEq

/-- The crowd-status computation of `applyDBSCAN` (`server.js` lines
109-112): `percentage = population / capacity * 100`; `> 85` is
`overcrowded`, else `> 60` is `moderate`, else `normal`. -/
def classifyStatus (population : ℤ) (capacity : ℕ) : String :=
  let percentage : ℚ := ((population : ℚ) / (capacity : ℚ)) * 100
  if percentage > 85 then "overcrowded"
  else if percentage > 60 then "moderate"
  else "normal"

/-- The density computation of `applyDBSCAN` (`server.js` line 106):
`Math.floor((population / capacity) * 120)`. -/
def classifyDensity (population : ℤ) (capacity : ℕ) : ℤ :=
  ⌊((population : ℚ) / (capacity : ℚ)) * 120⌋

/-- `generateNetworkActivity` (`server.js` lines 62-83): one signal per
registry zone; `population = Math.floor(capacity * 0.3 + Math.random() *
capacity * 0.5)` and coordinates `Math.random() * 100` each.  The random
stream is consumed in source call order: draws `3*i`, `3*i+1`, `3*i+2`
for the zone at index `i`. -/
def generateNetworkActivity (rand : ℕ → ℚ) : List Signal :=
  ZONES.enum.map (fun p =>
    let i := p.1
    let zone := p.2
    let basePopulation : ℚ := (zone.capacity : ℚ) * (3 / 10)
    let variance : ℚ := rand (3 * i) * (zone.capacity : ℚ) * (1 / 2)
    let x : ℚ := rand (3 * i + 1) * 100
    let y : ℚ := rand (3 * i + 2) * 100
    { zoneId := zone.id
      zoneName := zone.name
      population := ⌊basePopulation + variance⌋
      capacity := zone.capacity
      coordinates := (x, y) })

/-- The `clusters.forEach` loop of `applyDBSCAN` (`server.js` lines
99-103): scan the cluster list, remembering the index of the last
cluster that contains the point (accumulator starts at `-1`). -/
def clusterScan (idx : ℕ) : List (List ℕ) → ℕ → ℤ → ℤ
  | [], _, acc => acc
  | c :: rest, i, acc => clusterScan idx rest (i + 1) (if idx ∈ c then (i : ℤ) else acc)

/-- The cluster id assigned to point `idx` by `applyDBSCAN` before the
`+1` shift: the index of the last cluster containing `idx`, or `-1` for
a noise point. -/
def rawClusterId (clusters : List (List ℕ)) (idx : ℕ) : ℤ :=
  clusterScan idx clusters 0 (-1)

/-- `applyDBSCAN` (`server.js` lines 86-127).  The library call
`dbscan.run(coordinates, 30, 2)` is external; its result is the
`clusters` parameter.  `new Date()` is the `now` parameter. -/
def applyDBSCAN (clusters : List (List ℕ)) (now : ℤ) (zoneData : List Signal) :
    List Reading :=
  zoneData.enum.map (fun p =>
    let idx := p.1
    let zone := p.2
    let clusterId := rawClusterId clusters idx
    { zoneId := zone.zoneId
      zoneName := zone.zoneName
      population := zone.population
      density := classifyDensity zone.population zone.capacity
      cluster := if clusterId = -1 then 0 else clusterId + 1
      capacity := zone.capacity
      status := classifyStatus zone.population zone.capacity
      timestamp := now })

/-- The readings of one zone, in append order (the MongoDB documents
matching `{ zoneId: zid }`, insertion-ordered). -/
def readingsFor (store : List Reading) (zid : String) : List Reading :=
  store.filter (fun r => r.zoneId = zid)

/-- Fold selecting a maximum-timestamp reading (the reading a
`$sort: { timestamp: -1 }` pipeline places first; on equal timestamps
MongoDB's order is unspecified, determinized here to the earliest
appended). -/
def pickLatest (r : Reading) (rs : List Reading) : Reading :=
  rs.foldl (fun acc x => if acc.timestamp < x.timestamp then x else acc) r

/-- The single row the `$group` stage with `$first` keeps for zone
`zid`, or `none` if the zone never reported. -/
def latestFor (store : List Reading) (zid : String) : Option Reading :=
  match readingsFor store zid with
  | [] => none
  | r :: rs => some (pickLatest r rs)

/-- The distinct zone ids occurring in the store (the `$group` keys). -/
def zoneIds (store : List Reading) : List String :=
  (store.map (fun r => r.zoneId)).dedup

/-- The aggregation of `GET /api/zones` and `Zone.getLatestData`
(`server.js` lines 163-192): sort by timestamp descending, group by
`zoneId`, keep the first (latest) document per zone. -/
def latestPerZone (store : List Reading) : List Reading :=
  (zoneIds store).filterMap (latestFor store)

/-- The query of `GET /api/history/:zoneId` and `Zone.getZoneHistory`
(`server.js` lines 195-217): readings of the zone with
`timestamp >= now - 15 * 60 * 1000`, sorted ascending by timestamp. -/
def getZoneHistory (store : List Reading) (zid : String) (now : ℤ) : List Reading :=
  List.insertionSort (fun a b => a.timestamp ≤ b.timestamp)
    (store.filter (fun r => r.zoneId = zid ∧ now - 15 * 60 * 1000 ≤ r.timestamp))

/-- The JSON body of a successful `GET /api/history/:zoneId` response. -/
structure HistoryResponse where
  success : Bool
  zoneId : String
  data : List Reading
  count : ℕ
deriving DecidableEq

/-- The non-exceptional path of the `GET /api/history/:zoneId` handler
(MongoDB I/O failure, the only `catch` path, is external). -/
def historyEndpoint (store : List Reading) (zid : String) (now : ℤ) : HistoryResponse :=
  let history := getZoneHistory store zid now
  { success := true, zoneId := zid, data := history, count := history.length }

/-- The JSON `summary` object of `GET /api/summary`. -/
structure Summary where
  totalPopulation : ℤ
  activeZones : ℕ
  overcrowdedZones : ℕ
  totalZones : ℕ
deriving DecidableEq

/-- The `GET /api/summary` handler (`server.js` lines 220-252): reduce
the latest-per-zone rows to a total population, count rows with
`population > 0` and rows with status `overcrowded`; `totalZones` is
the registry size. -/
def summarize (store : List Reading) : Summary :=
  let latestZones := latestPerZone store
  { totalPopulation := latestZones.foldl (fun sum z => sum + z.population) 0
    activeZones := (latestZones.filter (fun z => z.population > 0)).length
    overcrowdedZones := (latestZones.filter (fun z => z.status = "overcrowded")).length
    totalZones := ZONES.length }

/-- A recorded Socket.IO emission: `io.emit` (to all subscribers) or
`socket.emit` (to the one socket identified by its id). -/
inductive Emit where
  | toAll : List Reading → Emit
  | toSocket : String → List Reading → Emit
deriving DecidableEq

/-- `saveZoneData` (`server.js` lines 130-137): `Zone.insertMany` with
the MongoDB outcome supplied by the oracle `dbFails`; on failure the
error is caught and logged, the store is unchanged. -/
def saveZoneData (dbFails : Bool) (store : List Reading) (zoneData : List Reading) :
    List Reading × List String :=
  if dbFails then (store, ["Error saving zone data"])
  else (store ++ zoneData, ["Zone data saved to MongoDB"])

/-- The `socket.on('requestUpdate')` handler (`server.js` lines
262-266): run the pipeline for a fresh tick and emit the snapshot to
the requesting socket only; the store is not touched. -/
def handleRequestUpdate (rand : ℕ → ℚ) (clusters : List (List ℕ)) (now : ℤ)
    (sid : String) (store : List Reading) : List Reading × List Emit :=
  let networkData := generateNetworkActivity rand
  let clusteredData := applyDBSCAN clusters now networkData
  (store, [Emit.toSocket sid clusteredData])

/-- One tick of `startRealTimeUpdates` (`server.js` lines 140-158):
generate, cluster/classify, save (failure contained in `saveZoneData`),
broadcast to all subscribers.  Returns the new store, the emissions and
the log lines. -/
def tick (rand : ℕ → ℚ) (clusters : List (List ℕ)) (now : ℤ) (dbFails : Bool)
    (store : List Reading) : List Reading × List Emit × List String :=
  let networkData := generateNetworkActivity rand
  let clusteredData := applyDBSCAN clusters now networkData
  let saved := saveZoneData dbFails store clusteredData
  (saved.1, [Emit.toAll clusteredData], saved.2)

/-- The environment of one tick: random stream, clusterer output,
timestamp, and whether the MongoDB insert fails. -/
structure TickEnv where
  rand : ℕ → ℚ
  clusters : List (List ℕ)
  now : ℤ
  dbFails : Bool

/-- The periodic `setInterval` driver: run one tick per environment,
threading the store and concatenating the emissions. -/
def runTicks (store : List Reading) : List TickEnv → List Reading × List Emit
  | [] => (store, [])
  | e :: rest =>
    let t := tick e.rand e.clusters e.now e.dbFails store
    let k := runTicks t.1 rest
    (k.1, t.2.1 ++ k.2)

/-- A fixed signal used to exercise the pipeline on concrete input. -/
def sigW : Signal :=
  { zoneId := "A", zoneName := "A", population := 0, capacity := 1, coordinates := (0, 0) }

/-- The reading `applyDBSCAN` produces from `sigW` when the clusterer
returns the single cluster `[0]` at time `0`. -/
def rW : Reading :=
  { zoneId := "A", zoneName := "A", population := 0, density := 0, cluster := 1,
    capacity := 1, status := "normal", timestamp := 0 }

/-- A reading of zone `A` with timestamp `5`, appended first. -/
def rA1 : Reading :=
  { zoneId := "A", zoneName := "A", population := 1, density := 12, cluster := 0,
    capacity := 10, status := "normal", timestamp := 5 }

/-- A reading of zone `A` with timestamp `3`, appended second. -/
def rA2 : Reading :=
  { zoneId := "A", zoneName := "A", population := 2, density := 24, cluster := 0,
    capacity := 10, status := "normal", timestamp := 3 }

/-- Every reading produced by `applyDBSCAN` carries its signal's
population and capacity and the classifier's density and status. -/
theorem mem_applyDBSCAN_spec {clusters : List (List ℕ)} {now : ℤ}
    {zoneData : List Signal} {r : Reading}
    (hr : r ∈ applyDBSCAN clusters now zoneData) :
    ∃ s ∈ zoneData, r.zoneId = s.zoneId ∧ r.population = s.population ∧
      r.capacity = s.capacity ∧
      r.density = classifyDensity s.population s.capacity ∧
      r.status = classifyStatus s.population s.capacity := by
  unfold applyDBSCAN at hr
  rcases List.mem_map.mp hr with ⟨p, hp, hfp⟩
  refine ⟨p.2, List.snd_mem_of_mem_enum hp, ?_⟩
  subst hfp
  exact ⟨rfl, rfl, rfl, rfl, rfl⟩

/-- C1: for every capacity `c > 0` and population `p ≥ 0`, the computed
status is `overcrowded` iff `p/c > 0.85`, `moderate` iff
`0.60 < p/c ≤ 0.85`, and `normal` otherwise; the boundary ratios `0.85`
and `0.60` map to the lower tier (`moderate` and `normal`). -/
theorem status_tier_spec (p : ℤ) (c : ℕ) (hp : 0 ≤ p) (hc : 0 < c) :
    (classifyStatus p c = "overcrowded" ↔ 85 / 100 < (p : ℚ) / (c : ℚ))
  ∧ (classifyStatus p c = "moderate" ↔
      60 / 100 < (p : ℚ) / (c : ℚ) ∧ (p : ℚ) / (c : ℚ) ≤ 85 / 100)
  ∧ (classifyStatus p c = "normal" ↔ (p : ℚ) / (c : ℚ) ≤ 60 / 100)
  ∧ ((p : ℚ) / (c : ℚ) = 85 / 100 → classifyStatus p c = "moderate")
  ∧ ((p : ℚ) / (c : ℚ) = 60 / 100 → classifyStatus p c = "normal") := by
  simp only [classifyStatus]
  set q : ℚ := (p : ℚ) / (c : ℚ) with hqdef
  by_cases hA : q * 100 > 85
  · rw [if_pos hA]
    have hq : 85 / 100 < q := by linarith
    refine ⟨⟨fun _ => hq, fun _ => rfl⟩, ?_, ?_, ?_, ?_⟩
    · exact ⟨fun h => absurd h (by decide), fun h => absurd hq (not_lt.mpr h.2)⟩
    · exact ⟨fun h => absurd h (by decide), fun h => absurd hq (not_lt.mpr (h.trans (by norm_num)))⟩
    · intro h; exact absurd hA (by rw [h]; norm_num)
    · intro h; exact absurd hA (by rw [h]; norm_num)
  · rw [if_neg hA]
    have hA' : q ≤ 85 / 100 := by
      have := not_lt.mp hA; linarith
    by_cases hB : q * 100 > 60
    · rw [if_pos hB]
      have hq : 60 / 100 < q := by linarith
      refine ⟨?_, ⟨fun _ => ⟨hq, hA'⟩, fun _ => rfl⟩, ?_, fun _ => rfl, ?_⟩
      · exact ⟨fun h => absurd h (by decide), fun h => absurd hA' (not_le.mpr h)⟩
      · exact ⟨fun h => absurd h (by decide), fun h => absurd hq (not_lt.mpr h)⟩
      · intro h; exact absurd hB (by rw [h]; norm_num)
    · rw [if_neg hB]
      have hB' : q ≤ 60 / 100 := by
        have := not_lt.mp hB; linarith
      refine ⟨?_, ?_, ⟨fun _ => hB', fun _ => rfl⟩, ?_, fun _ => rfl⟩
      · exact ⟨fun h => absurd h (by decide), fun h => absurd hB' (by push_neg; linarith)⟩
      · exact ⟨fun h => absurd h (by decide), fun h => absurd hB' (not_le.mpr h.1)⟩
      · intro h; exact absurd hB (by rw [h]; norm_num)

/-- Witness for C1 at the boundary input `p = 17`, `c = 20` (ratio
exactly `0.85`): the status is `moderate`. -/
theorem status_tier_spec_witness :
    (0 ≤ (17 : ℤ)) ∧ (0 < (20 : ℕ))
  ∧ ((classifyStatus 17 20 = "overcrowded" ↔ 85 / 100 < ((17 : ℤ) : ℚ) / ((20 : ℕ) : ℚ))
  ∧ (classifyStatus 17 20 = "moderate" ↔
      60 / 100 < ((17 : ℤ) : ℚ) / ((20 : ℕ) : ℚ) ∧ ((17 : ℤ) : ℚ) / ((20 : ℕ) : ℚ) ≤ 85 / 100)
  ∧ (classifyStatus 17 20 = "normal" ↔ ((17 : ℤ) : ℚ) / ((20 : ℕ) : ℚ) ≤ 60 / 100)
  ∧ (((17 : ℤ) : ℚ) / ((20 : ℕ) : ℚ) = 85 / 100 → classifyStatus 17 20 = "moderate")
  ∧ (((17 : ℤ) : ℚ) / ((20 : ℕ) : ℚ) = 60 / 100 → classifyStatus 17 20 = "normal")) :=
  ⟨by norm_num, by norm_num, status_tier_spec 17 20 (by norm_num) (by norm_num)⟩

/-- The pipeline output on the concrete input `sigW` with one cluster
containing point `0`. -/
theorem applyDBSCAN_sigW : applyDBSCAN [[0]] 0 [sigW] = [rW] := by
  simp only [applyDBSCAN, sigW, rW, List.enum_cons, List.enumFrom, List.map,
    rawClusterId, clusterScan, classifyDensity, classifyStatus]
  norm_num

/-- C2: every reading built by `applyDBSCAN` stores
`density = floor((population / capacity) * 120)`; at population `4625`
and capacity `5880` the density is `94`. -/
theorem density_stored_spec (clusters : List (List ℕ)) (now : ℤ)
    (zoneData : List Signal) (r : Reading)
    (hr : r ∈ applyDBSCAN clusters now zoneData) :
    r.density = ⌊((r.population : ℚ) / (r.capacity : ℚ)) * 120⌋
  ∧ classifyDensity 4625 5880 = 94 := by
  obtain ⟨s, -, -, hpop, hcap, hden, -⟩ := mem_applyDBSCAN_spec hr
  refine ⟨?_, ?_⟩
  · rw [hden, hpop, hcap]; rfl
  · unfold classifyDensity
    push_cast
    norm_num

/-- Witness for C2: the concrete reading produced from `sigW`. -/
theorem density_stored_spec_witness :
    (rW ∈ applyDBSCAN [[0]] 0 [sigW])
  ∧ (rW.density = ⌊((rW.population : ℚ) / (rW.capacity : ℚ)) * 120⌋
      ∧ classifyDensity 4625 5880 = 94) :=
  have hW : rW ∈ applyDBSCAN [[0]] 0 [sigW] := by
    rw [applyDBSCAN_sigW]; exact List.mem_singleton.mpr rfl
  ⟨hW, density_stored_spec [[0]] 0 [sigW] rW hW⟩

/-- If no cluster contains the point, the scan keeps its accumulator. -/
theorem clusterScan_of_not_mem {idx : ℕ} {cs : List (List ℕ)}
    (h : ∀ c ∈ cs, idx ∉ c) :
    ∀ (i : ℕ) (acc : ℤ), clusterScan idx cs i acc = acc := by
  induction cs with
  | nil => intro i acc; rfl
  | cons c rest ih =>
    intro i acc
    have hc : idx ∉ c := h c (List.mem_cons_self c rest)
    simp only [clusterScan, if_neg hc]
    exact ih (fun d hd => h d (List.mem_cons_of_mem c hd)) (i + 1) acc

/-- The scan result is the accumulator or at least the start index. -/
theorem clusterScan_lower {idx : ℕ} (cs : List (List ℕ)) :
    ∀ (i : ℕ) (acc : ℤ),
      clusterScan idx cs i acc = acc ∨ (i : ℤ) ≤ clusterScan idx cs i acc := by
  induction cs with
  | nil => intro i acc; exact Or.inl rfl
  | cons c rest ih =>
    intro i acc
    simp only [clusterScan]
    by_cases hc : idx ∈ c
    · rw [if_pos hc]
      rcases ih (i + 1) (i : ℤ) with h | h
      · right; rw [h]
      · right; push_cast at h ⊢; linarith
    · rw [if_neg hc]
      rcases ih (i + 1) acc with h | h
      · exact Or.inl h
      · right; push_cast at h ⊢; linarith

/-- If some cluster contains the point, the scan result is at least the
start index (hence non-negative for start index `0`). -/
theorem clusterScan_of_mem {idx : ℕ} (cs : List (List ℕ)) :
    (∃ c ∈ cs, idx ∈ c) →
    ∀ (i : ℕ) (acc : ℤ), (i : ℤ) ≤ clusterScan idx cs i acc := by
  induction cs with
  | nil => rintro ⟨c, hc, -⟩; exact absurd hc (List.not_mem_nil c)
  | cons c rest ih =>
    rintro ⟨d, hd, hmem⟩ i acc
    simp only [clusterScan]
    by_cases hc : idx ∈ c
    · rw [if_pos hc]
      rcases clusterScan_lower rest (i + 1) (i : ℤ) with h2 | h2
      · rw [h2]
      · push_cast at h2 ⊢; linarith
    · rw [if_neg hc]
      rcases List.mem_cons.mp hd with he | he
      · exact absurd (he ▸ hmem) hc
      · have h3 := ih ⟨d, he, hmem⟩ (i + 1) acc
        push_cast at h3 ⊢; linarith

/-- If cluster `j` contains the point and no later cluster does, the
scan (last-match-wins) returns `i + j` from start index `i`. -/
theorem clusterScan_last {idx : ℕ} (cs : List (List ℕ)) :
    ∀ (j : ℕ) (c : List ℕ), cs[j]? = some c → idx ∈ c →
      (∀ (k : ℕ) (d : List ℕ), j < k → cs[k]? = some d → idx ∉ d) →
      ∀ (i : ℕ) (acc : ℤ), clusterScan idx cs i acc = (i : ℤ) + (j : ℤ) := by
  induction cs with
  | nil => intro j c hj; simp at hj
  | cons c0 rest ih =>
    intro j c hj hmem hlater i acc
    cases j with
    | zero =>
      rw [List.getElem?_cons_zero, Option.some_inj] at hj
      subst hj
      simp only [clusterScan, if_pos hmem]
      have hrest : ∀ d ∈ rest, idx ∉ d := by
        intro d hd
        obtain ⟨k, hk⟩ := List.mem_iff_getElem?.mp hd
        exact hlater (k + 1) d (Nat.succ_pos k) (by simpa using hk)
      rw [clusterScan_of_not_mem hrest]
      push_cast; ring
    | succ n =>
      have hj' : rest[n]? = some c := by simpa using hj
      have hlater' : ∀ (k : ℕ) (d : List ℕ), n < k → rest[k]? = some d → idx ∉ d := by
        intro k d hk hkd
        exact hlater (k + 1) d (Nat.succ_lt_succ hk) (by simpa using hkd)
      simp only [clusterScan]
      rw [ih n c hj' hmem hlater' (i + 1) (if idx ∈ c0 then (i : ℤ) else acc)]
      push_cast; ring

/-- C5: the `cluster` field of each tick's reading is a non-negative
integer; it is `0` exactly when the clusterer labels the point as noise
(no cluster contains its index), and otherwise, for disjoint clusterer
output, it is the 1-based id of the cluster containing the point (the
0-based cluster index shifted by one). -/
theorem cluster_label_spec (clusters : List (List ℕ)) (now : ℤ)
    (zoneData : List Signal) (idx : ℕ) (r : Reading)
    (hr : (applyDBSCAN clusters now zoneData)[idx]? = some r) :
    0 ≤ r.cluster
  ∧ (r.cluster = 0 ↔ ∀ c ∈ clusters, idx ∉ c)
  ∧ (List.Pairwise (fun c d => ∀ m ∈ c, m ∉ d) clusters →
      ∀ (j : ℕ) (c : List ℕ), clusters[j]? = some c → idx ∈ c →
        r.cluster = (j : ℤ) + 1) := by
  have hcl : r.cluster =
      if rawClusterId clusters idx = -1 then 0 else rawClusterId clusters idx + 1 := by
    unfold applyDBSCAN at hr
    rw [List.getElem?_map, List.getElem?_enum] at hr
    cases hz : zoneData[idx]? with
    | none => rw [hz] at hr; simp at hr
    | some s =>
      rw [hz] at hr
      simp only [Option.map_some'] at hr
      rw [← Option.some_inj.mp hr]
  have hraw : rawClusterId clusters idx = clusterScan idx clusters 0 (-1) := rfl
  refine ⟨?_, ?_, ?_⟩
  · rw [hcl]
    by_cases h : rawClusterId clusters idx = -1
    · rw [if_pos h]
    · rw [if_neg h]
      rcases @clusterScan_lower idx clusters 0 (-1) with h2 | h2
      · rw [hraw] at h; exact absurd h2 h
      · rw [hraw]; push_cast at h2; linarith
  · rw [hcl]
    constructor
    · intro h0
      by_contra hne
      push_neg at hne
      obtain ⟨c, hc, hmem⟩ := hne
      have hge := @clusterScan_of_mem idx clusters ⟨c, hc, hmem⟩ 0 (-1)
      push_cast at hge
      by_cases h : rawClusterId clusters idx = -1
      · rw [hraw] at h; omega
      · rw [if_neg h] at h0
        rw [hraw] at h h0
        omega
    · intro h
      have h1 := @clusterScan_of_not_mem idx _ h 0 (-1)
      rw [if_pos (hraw.trans h1)]
  · intro hpw j c hj hmem
    obtain ⟨hjlt, hjget⟩ := List.getElem?_eq_some.mp hj
    have hlater : ∀ (k : ℕ) (d : List ℕ), j < k → clusters[k]? = some d → idx ∉ d := by
      intro k d hk hkd
      obtain ⟨hklt, hkget⟩ := List.getElem?_eq_some.mp hkd
      have hrel := List.pairwise_iff_getElem.mp hpw j k hjlt hklt hk
      rw [hjget, hkget] at hrel
      exact hrel idx hmem
    have hrj : rawClusterId clusters idx = (j : ℤ) := by
      rw [hraw, @clusterScan_last idx clusters j c hj hmem hlater 0 (-1)]
      push_cast; ring
    rw [hcl, hrj, if_neg (by omega)]

/-- Witness for C5 at the concrete pipeline run on `sigW` with the
single cluster `[0]`: the reading's cluster field is `1`. -/
theorem cluster_label_spec_witness :
    ((applyDBSCAN [[0]] 0 [sigW])[0]? = some rW)
  ∧ (0 ≤ rW.cluster
      ∧ (rW.cluster = 0 ↔ ∀ c ∈ [[0]], (0 : ℕ) ∉ c)
      ∧ (List.Pairwise (fun c d => ∀ m ∈ c, m ∉ d) [[(0 : ℕ)]] →
          ∀ (j : ℕ) (c : List ℕ), [[(0 : ℕ)]][j]? = some c → 0 ∈ c →
            rW.cluster = (j : ℤ) + 1)) :=
  have hW : (applyDBSCAN [[0]] 0 [sigW])[0]? = some rW := by
    rw [applyDBSCAN_sigW]; rfl
  ⟨hW, cluster_label_spec [[0]] 0 [sigW] 0 rW hW⟩

/-- The `pickLatest` fold returns one of the candidate readings. -/
theorem pickLatest_mem : ∀ (rs : List Reading) (r : Reading), pickLatest r rs ∈ r :: rs := by
  intro rs
  induction rs with
  | nil => intro r; exact List.mem_cons_self r []
  | cons x xs ih =>
    intro r
    have hstep : pickLatest r (x :: xs) =
        pickLatest (if r.timestamp < x.timestamp then x else r) xs := rfl
    rw [hstep]
    rcases List.mem_cons.mp (ih (if r.timestamp < x.timestamp then x else r)) with h1 | h1
    · rw [h1]
      by_cases h : r.timestamp < x.timestamp
      · rw [if_pos h]; exact List.mem_cons_of_mem r (List.mem_cons_self x xs)
      · rw [if_neg h]; exact List.mem_cons_self r (x :: xs)
    · exact List.mem_cons_of_mem r (List.mem_cons_of_mem x h1)

/-- On a list whose timestamps strictly increase, the `pickLatest` fold
returns the last element. -/
theorem pickLatest_of_increasing : ∀ (rs : List Reading) (r : Reading),
    List.Pairwise (fun a b => a.timestamp < b.timestamp) (r :: rs) →
    (r :: rs).getLast? = some (pickLatest r rs) := by
  intro rs
  induction rs with
  | nil => intro r _; rfl
  | cons x xs ih =>
    intro r hpw
    have hrx : r.timestamp < x.timestamp :=
      (List.pairwise_cons.mp hpw).1 x (List.mem_cons_self x xs)
    have htail := (List.pairwise_cons.mp hpw).2
    have hstep : pickLatest r (x :: xs) = pickLatest x xs := by
      have h0 : pickLatest r (x :: xs) =
          pickLatest (if r.timestamp < x.timestamp then x else r) xs := rfl
      rw [h0, if_pos hrx]
    rw [List.getLast?_cons_cons, hstep]
    exact ih x htail

/-- Members of `readingsFor` are store members of the given zone. -/
theorem mem_readingsFor {store : List Reading} {zid : String} {r : Reading}
    (h : r ∈ readingsFor store zid) : r ∈ store ∧ r.zoneId = zid := by
  rw [readingsFor, List.mem_filter] at h
  exact ⟨h.1, by simpa using h.2⟩

/-- A zone id occurring in the store has a latest row, itself one of the
zone's readings. -/
theorem latestFor_spec {store : List Reading} {zid : String}
    (h : zid ∈ zoneIds store) :
    ∃ r, latestFor store zid = some r ∧ r ∈ readingsFor store zid := by
  obtain ⟨r0, hr0, he⟩ := List.mem_map.mp (List.mem_dedup.mp h)
  have hf : r0 ∈ readingsFor store zid := by
    rw [readingsFor, List.mem_filter]
    exact ⟨hr0, by simp [he]⟩
  cases hrf : readingsFor store zid with
  | nil => rw [hrf] at hf; exact absurd hf (List.not_mem_nil r0)
  | cons a as =>
    refine ⟨pickLatest a as, ?_, ?_⟩
    · unfold latestFor; rw [hrf]
    · exact pickLatest_mem as a

/-- Mapping the zone id over a `filterMap` whose function always yields
a row of the queried zone recovers the queried id list. -/
theorem filterMap_zoneId_id : ∀ (l : List String) (f : String → Option Reading),
    (∀ zid ∈ l, ∃ r, f zid = some r ∧ r.zoneId = zid) →
    List.map (fun r => r.zoneId) (l.filterMap f) = l := by
  intro l
  induction l with
  | nil => intro f _; rfl
  | cons a as ih =>
    intro f h
    obtain ⟨r, hr, hrz⟩ := h a (List.mem_cons_self a as)
    rw [List.filterMap_cons, hr]
    simp only [List.map_cons]
    rw [hrz, ih f (fun z hz => h z (List.mem_cons_of_mem a hz))]

/-- C3 (amended): when each zone's timestamps strictly increase in
append order, the latest-per-zone query returns exactly one row per
distinct zone id in the store, each equal to the most-recently-appended
reading of that zone; in general the query keys on the timestamp field
(greatest timestamp), not on append order. -/
theorem latest_per_zone_roundtrip (store : List Reading)
    (h : ∀ zid, List.Pairwise (fun a b => a.timestamp < b.timestamp)
      (readingsFor store zid)) :
    (List.map (fun r => r.zoneId) (latestPerZone store) = zoneIds store)
  ∧ ∀ r ∈ latestPerZone store, (readingsFor store r.zoneId).getLast? = some r := by
  constructor
  · apply filterMap_zoneId_id
    intro zid hzid
    obtain ⟨r, hr, hrmem⟩ := latestFor_spec hzid
    exact ⟨r, hr, (mem_readingsFor hrmem).2⟩
  · intro r hr
    rcases List.mem_filterMap.mp hr with ⟨zid, hzid, hf⟩
    cases hrf : readingsFor store zid with
    | nil => unfold latestFor at hf; rw [hrf] at hf; exact absurd hf (by simp)
    | cons a as =>
      unfold latestFor at hf
      rw [hrf] at hf
      have hreq : pickLatest a as = r := Option.some_inj.mp hf
      have hrmem : r ∈ readingsFor store zid := by
        rw [hrf, ← hreq]; exact pickLatest_mem as a
      have hzeq : r.zoneId = zid := (mem_readingsFor hrmem).2
      have hpw := h zid
      rw [hrf] at hpw
      have hlast := pickLatest_of_increasing as a hpw
      rw [hzeq, hrf, hlast, hreq]

/-- C3 counterexample: appending two readings of zone `A` with
timestamps `5` then `3`, the latest-per-zone query returns the
first-appended reading (the one with the greater timestamp), not the
most-recently-appended one. -/
theorem latest_per_zone_cex :
    latestPerZone [rA1, rA2] = [rA1]
  ∧ (readingsFor [rA1, rA2] "A").getLast? = some rA2
  ∧ rA1 ≠ rA2 := by decide

/-- Witness for the amended C3 on the store `[rA2, rA1]` (zone `A`
appended with increasing timestamps `3` then `5`). -/
theorem latest_per_zone_roundtrip_witness :
    (∀ zid, List.Pairwise (fun a b => a.timestamp < b.timestamp)
      (readingsFor [rA2, rA1] zid))
  ∧ ((List.map (fun r => r.zoneId) (latestPerZone [rA2, rA1]) = zoneIds [rA2, rA1])
      ∧ ∀ r ∈ latestPerZone [rA2, rA1],
          (readingsFor [rA2, rA1] r.zoneId).getLast? = some r) :=
  have hp : ∀ zid, List.Pairwise (fun a b => a.timestamp < b.timestamp)
      (readingsFor [rA2, rA1] zid) := by
    intro zid
    have hred : readingsFor [rA2, rA1] zid =
        if ("A" : String) = zid then [rA2, rA1] else [] := by
      rw [readingsFor]
      by_cases h : ("A" : String) = zid
      · rw [if_pos h]; simp [rA1, rA2, h]
      · rw [if_neg h]; simp [rA1, rA2, h]
    rw [hred]
    by_cases h : ("A" : String) = zid
    · rw [if_pos h]; decide
    · rw [if_neg h]; exact List.Pairwise.nil
  ⟨hp, latest_per_zone_roundtrip [rA2, rA1] hp⟩

/-- C4: the history endpoint returns exactly the stored readings of the
requested zone whose timestamp is within the 15-minute window, ordered
ascending by timestamp, with a success response and a matching count; a
zone id never appended yields the empty sequence, still with success
(the handler has no failure path for an unknown zone). -/
theorem history_window_spec (store : List Reading) (zid : String) (now : ℤ) :
    (historyEndpoint store zid now).success = true
  ∧ (historyEndpoint store zid now).zoneId = zid
  ∧ List.Perm (historyEndpoint store zid now).data
      (store.filter (fun r => r.zoneId = zid ∧ now - 15 * 60 * 1000 ≤ r.timestamp))
  ∧ List.Pairwise (fun a b => a.timestamp ≤ b.timestamp)
      (historyEndpoint store zid now).data
  ∧ (historyEndpoint store zid now).count = (historyEndpoint store zid now).data.length
  ∧ ((∀ r ∈ store, r.zoneId ≠ zid) → (historyEndpoint store zid now).data = []) := by
  refine ⟨rfl, rfl, ?_, ?_, rfl, ?_⟩
  · exact List.perm_insertionSort _ _
  · haveI h1 : IsTotal Reading (fun a b => a.timestamp ≤ b.timestamp) :=
      ⟨fun a b => le_total _ _⟩
    haveI h2 : IsTrans Reading (fun a b => a.timestamp ≤ b.timestamp) :=
      ⟨fun _ _ _ hab hbc => le_trans hab hbc⟩
    exact List.sorted_insertionSort _ _
  · intro h
    have hnil : store.filter
        (fun r => r.zoneId = zid ∧ now - 15 * 60 * 1000 ≤ r.timestamp) = [] := by
      rw [List.filter_eq_nil_iff]
      intro a ha
      simp only [decide_eq_true_eq, not_and]
      intro hz
      exact absurd hz (h a ha)
    show List.insertionSort _ (store.filter _) = []
    rw [hnil]
    rfl

/-- Witness for C4 on the empty store and zone id `Z` (never appended):
a success response with empty data. -/
theorem history_window_spec_witness :
    (∀ r ∈ ([] : List Reading), r.zoneId ≠ "Z")
  ∧ (historyEndpoint [] "Z" 0).success = true
  ∧ (historyEndpoint [] "Z" 0).data = [] :=
  ⟨fun r hr => absurd hr (List.not_mem_nil r),
   (history_window_spec [] "Z" 0).1,
   (history_window_spec [] "Z" 0).2.2.2.2.2 (fun r hr => absurd hr (List.not_mem_nil r))⟩

/-- C6: the on-demand refresh handler runs the pipeline for a fresh
tick and emits the snapshot only to the requesting socket: the store is
unchanged, the single emission targets the requester with the computed
snapshot, and no broadcast to all subscribers occurs. -/
theorem refresh_on_demand_spec (rand : ℕ → ℚ) (clusters : List (List ℕ)) (now : ℤ)
    (sid : String) (store : List Reading) :
    (handleRequestUpdate rand clusters now sid store).1 = store
  ∧ (handleRequestUpdate rand clusters now sid store).2 =
      [Emit.toSocket sid (applyDBSCAN clusters now (generateNetworkActivity rand))]
  ∧ ∀ e ∈ (handleRequestUpdate rand clusters now sid store).2,
      ∀ snap, e ≠ Emit.toAll snap := by
  refine ⟨rfl, rfl, ?_⟩
  intro e he snap
  have he' : e = Emit.toSocket sid (applyDBSCAN clusters now (generateNetworkActivity rand)) :=
    List.mem_singleton.mp he
  rw [he']
  exact fun hc => Emit.noConfusion hc

/-- C7: a failed store append is contained at the store boundary: the
tick leaves the store unchanged, logs the error, and still broadcasts
the computed in-memory snapshot to all subscribers; and the periodic
driver keeps running — every tick of any schedule produces exactly one
broadcast, whatever the append outcomes. -/
theorem append_failure_contained :
    (∀ (rand : ℕ → ℚ) (clusters : List (List ℕ)) (now : ℤ) (store : List Reading),
      tick rand clusters now true store =
        (store,
         [Emit.toAll (applyDBSCAN clusters now (generateNetworkActivity rand))],
         ["Error saving zone data"]))
  ∧ ∀ (envs : List TickEnv) (store : List Reading),
      (runTicks store envs).2.length = envs.length := by
  constructor
  · intro rand clusters now store; rfl
  · intro envs
    induction envs with
    | nil => intro store; rfl
    | cons e rest ih =>
      intro store
      have h1 : (runTicks store (e :: rest)).2 =
          (tick e.rand e.clusters e.now e.dbFails store).2.1 ++
            (runTicks (tick e.rand e.clusters e.now e.dbFails store).1 rest).2 := rfl
      rw [h1, List.length_append, ih]
      have h2 : (tick e.rand e.clusters e.now e.dbFails store).2.1.length = 1 := rfl
      rw [h2, List.length_cons]
      omega

/-- Folding addition of populations equals the sum of the mapped list. -/
theorem foldl_add_population : ∀ (l : List Reading) (init : ℤ),
    l.foldl (fun sum z => sum + z.population) init =
      init + (List.map (fun r => r.population) l).sum := by
  intro l
  induction l with
  | nil => intro init; simp
  | cons x xs ih =>
    intro init
    simp only [List.foldl_cons, List.map_cons, List.sum_cons, ih]
    ring

/-- C9: the summary over the latest-per-zone rows reports the sum of
their populations, the count of rows with positive population, the
count of rows with status `overcrowded`, and the registry size (9). -/
theorem summary_spec (store : List Reading) :
    (summarize store).totalPopulation =
      (List.map (fun r => r.population) (latestPerZone store)).sum
  ∧ (summarize store).activeZones =
      ((latestPerZone store).filter (fun z => z.population > 0)).length
  ∧ (summarize store).overcrowdedZones =
      ((latestPerZone store).filter (fun z => z.status = "overcrowded")).length
  ∧ (summarize store).totalZones = ZONES.length
  ∧ ZONES.length = 9 := by
  refine ⟨?_, rfl, rfl, rfl, rfl⟩
  show (latestPerZone store).foldl (fun sum z => sum + z.population) 0 = _
  rw [foldl_add_population]
  ring

/-- C8: the simulator produces exactly one signal per registry zone
(non-empty output, so it always succeeds); the signal at index `i`
carries the zone's id, name and capacity, population
`floor(capacity * 0.3 + r * capacity * 0.5)` with `r` the zone's own
uniform draw, and a coordinate pair of two further independent draws
scaled into `[0,100) × [0,100)`. -/
theorem simulator_spec (rand : ℕ → ℚ) (h : ∀ n, 0 ≤ rand n ∧ rand n < 1) :
    (generateNetworkActivity rand).length = ZONES.length
  ∧ 0 < (generateNetworkActivity rand).length
  ∧ ∀ (i : ℕ) (zone : Zone), ZONES[i]? = some zone →
      ∃ s, (generateNetworkActivity rand)[i]? = some s
        ∧ s.zoneId = zone.id ∧ s.zoneName = zone.name ∧ s.capacity = zone.capacity
        ∧ s.population =
            ⌊(zone.capacity : ℚ) * (3 / 10) +
              rand (3 * i) * (zone.capacity : ℚ) * (1 / 2)⌋
        ∧ s.coordinates.1 = rand (3 * i + 1) * 100
        ∧ s.coordinates.2 = rand (3 * i + 2) * 100
        ∧ 0 ≤ s.coordinates.1 ∧ s.coordinates.1 < 100
        ∧ 0 ≤ s.coordinates.2 ∧ s.coordinates.2 < 100 := by
  have hlen : (generateNetworkActivity rand).length = ZONES.length := by
    rw [generateNetworkActivity, List.length_map, List.enum_length]
  refine ⟨hlen, by rw [hlen]; decide, ?_⟩
  intro i zone hz
  have hget : (generateNetworkActivity rand)[i]? =
      some ({ zoneId := zone.id
              zoneName := zone.name
              population := ⌊(zone.capacity : ℚ) * (3 / 10) +
                rand (3 * i) * (zone.capacity : ℚ) * (1 / 2)⌋
              capacity := zone.capacity
              coordinates := (rand (3 * i + 1) * 100, rand (3 * i + 2) * 100) } : Signal) := by
    rw [generateNetworkActivity, List.getElem?_map, List.getElem?_enum, hz]
    rfl
  refine ⟨_, hget, rfl, rfl, rfl, rfl, rfl, rfl, ?_, ?_, ?_, ?_⟩
  · exact mul_nonneg (h (3 * i + 1)).1 (by norm_num)
  · have := (h (3 * i + 1)).2; linarith
  · exact mul_nonneg (h (3 * i + 2)).1 (by norm_num)
  · have := (h (3 * i + 2)).2; linarith

/-- Witness for C8 with the constant zero random stream. -/
theorem simulator_spec_witness :
    (∀ n, 0 ≤ (fun _ : ℕ => (0 : ℚ)) n ∧ (fun _ : ℕ => (0 : ℚ)) n < 1)
  ∧ ((generateNetworkActivity (fun _ => 0)).length = ZONES.length
  ∧ 0 < (generateNetworkActivity (fun _ => 0)).length
  ∧ ∀ (i : ℕ) (zone : Zone), ZONES[i]? = some zone →
      ∃ s, (generateNetworkActivity (fun _ => 0))[i]? = some s
        ∧ s.zoneId = zone.id ∧ s.zoneName = zone.name ∧ s.capacity = zone.capacity
        ∧ s.population =
            ⌊(zone.capacity : ℚ) * (3 / 10) +
              (fun _ : ℕ => (0 : ℚ)) (3 * i) * (zone.capacity : ℚ) * (1 / 2)⌋
        ∧ s.coordinates.1 = (fun _ : ℕ => (0 : ℚ)) (3 * i + 1) * 100
        ∧ s.coordinates.2 = (fun _ : ℕ => (0 : ℚ)) (3 * i + 2) * 100
        ∧ 0 ≤ s.coordinates.1 ∧ s.coordinates.1 < 100
        ∧ 0 ≤ s.coordinates.2 ∧ s.coordinates.2 < 100) :=
  have h0 : ∀ n, 0 ≤ (fun _ : ℕ => (0 : ℚ)) n ∧ (fun _ : ℕ => (0 : ℚ)) n < 1 :=
    fun _ => ⟨le_refl 0, by norm_num⟩
  ⟨h0, simulator_spec (fun _ => 0) h0⟩

/-- Every registry zone has positive capacity. -/
theorem ZONES_capacity_pos : ∀ z ∈ ZONES, 0 < z.capacity := by decide

/-- Every simulated signal has positive capacity and a population
strictly below `0.8 * capacity` when the random draws lie in `[0,1)`. -/
theorem simulated_population_bound (rand : ℕ → ℚ) (h : ∀ n, 0 ≤ rand n ∧ rand n < 1) :
    ∀ s ∈ generateNetworkActivity rand,
      0 < s.capacity ∧ (s.population : ℚ) < (8 / 10 : ℚ) * (s.capacity : ℚ) := by
  intro s hs
  rw [generateNetworkActivity] at hs
  rcases List.mem_map.mp hs with ⟨p, hp, hfp⟩
  have hzmem : p.2 ∈ ZONES := List.snd_mem_of_mem_enum hp
  have hc : 0 < p.2.capacity := ZONES_capacity_pos p.2 hzmem
  subst hfp
  refine ⟨hc, ?_⟩
  have hr := h (3 * p.1)
  have hcQ : (0 : ℚ) < (p.2.capacity : ℚ) := by exact_mod_cast hc
  have hle : ((⌊(p.2.capacity : ℚ) * (3 / 10) +
      rand (3 * p.1) * (p.2.capacity : ℚ) * (1 / 2)⌋ : ℤ) : ℚ) ≤
      (p.2.capacity : ℚ) * (3 / 10) + rand (3 * p.1) * (p.2.capacity : ℚ) * (1 / 2) :=
    Int.floor_le _
  have hkey : rand (3 * p.1) * (p.2.capacity : ℚ) < (p.2.capacity : ℚ) := by
    nlinarith [mul_pos (sub_pos.mpr hr.2) hcQ]
  calc ((⌊(p.2.capacity : ℚ) * (3 / 10) +
      rand (3 * p.1) * (p.2.capacity : ℚ) * (1 / 2)⌋ : ℤ) : ℚ)
      ≤ (p.2.capacity : ℚ) * (3 / 10) + rand (3 * p.1) * (p.2.capacity : ℚ) * (1 / 2) := hle
    _ < (8 / 10 : ℚ) * (p.2.capacity : ℚ) := by linarith

/-- C10: under the built-in simulator configuration every simulated
population is at most `floor(0.8 * capacity)` and the ratio
`population / capacity` stays below `0.85`; hence every classified
reading of a tick has status `normal` or `moderate` — `overcrowded` is
unreachable — and the overcrowded count over the tick's readings is
always `0`. -/
theorem overcrowded_unreachable (rand : ℕ → ℚ) (h : ∀ n, 0 ≤ rand n ∧ rand n < 1)
    (clusters : List (List ℕ)) (now : ℤ) :
    (∀ s ∈ generateNetworkActivity rand,
        s.population ≤ ⌊(8 / 10 : ℚ) * (s.capacity : ℚ)⌋
      ∧ (s.population : ℚ) / (s.capacity : ℚ) < 85 / 100)
  ∧ (∀ r ∈ applyDBSCAN clusters now (generateNetworkActivity rand),
        r.status = "normal" ∨ r.status = "moderate")
  ∧ ((applyDBSCAN clusters now (generateNetworkActivity rand)).filter
        (fun z => z.status = "overcrowded")).length = 0 := by
  have hratio : ∀ s ∈ generateNetworkActivity rand,
      (s.population : ℚ) / (s.capacity : ℚ) < 85 / 100 := by
    intro s hs
    obtain ⟨hc, hlt⟩ := simulated_population_bound rand h s hs
    have hcQ : (0 : ℚ) < (s.capacity : ℚ) := by exact_mod_cast hc
    have h1 : (s.population : ℚ) / (s.capacity : ℚ) < 8 / 10 :=
      (div_lt_iff hcQ).mpr (by linarith)
    linarith
  have hfirst : ∀ s ∈ generateNetworkActivity rand,
      s.population ≤ ⌊(8 / 10 : ℚ) * (s.capacity : ℚ)⌋
    ∧ (s.population : ℚ) / (s.capacity : ℚ) < 85 / 100 := by
    intro s hs
    obtain ⟨hc, hlt⟩ := simulated_population_bound rand h s hs
    exact ⟨Int.le_floor.mpr (le_of_lt hlt), hratio s hs⟩
  have hsecond : ∀ r ∈ applyDBSCAN clusters now (generateNetworkActivity rand),
      r.status = "normal" ∨ r.status = "moderate" := by
    intro r hr
    obtain ⟨s, hs, -, hpop, hcap, -, hstat⟩ := mem_applyDBSCAN_spec hr
    obtain ⟨hc, hlt⟩ := simulated_population_bound rand h s hs
    have hcQ : (0 : ℚ) < (s.capacity : ℚ) := by exact_mod_cast hc
    have hq : (s.population : ℚ) / (s.capacity : ℚ) < 8 / 10 :=
      (div_lt_iff hcQ).mpr (by linarith)
    rw [hstat]
    simp only [classifyStatus]
    have hno : ¬((s.population : ℚ) / (s.capacity : ℚ) * 100 > 85) := by
      push_neg; nlinarith
    rw [if_neg hno]
    by_cases hm : (s.population : ℚ) / (s.capacity : ℚ) * 100 > 60
    · rw [if_pos hm]; right; rfl
    · rw [if_neg hm]; left; rfl
  refine ⟨hfirst, hsecond, ?_⟩
  rw [List.length_eq_zero, List.filter_eq_nil_iff]
  intro a ha
  rcases hsecond a ha with h1 | h1 <;> simp [h1]

/-- Witness for C10 with the constant zero random stream, the empty
clusterer output and timestamp `0`. -/
theorem overcrowded_unreachable_witness :
    (∀ n, 0 ≤ (fun _ : ℕ => (0 : ℚ)) n ∧ (fun _ : ℕ => (0 : ℚ)) n < 1)
  ∧ ((∀ s ∈ generateNetworkActivity (fun _ => 0),
        s.population ≤ ⌊(8 / 10 : ℚ) * (s.capacity : ℚ)⌋
      ∧ (s.population : ℚ) / (s.capacity : ℚ) < 85 / 100)
  ∧ (∀ r ∈ applyDBSCAN [] 0 (generateNetworkActivity (fun _ => 0)),
        r.status = "normal" ∨ r.status = "moderate")
  ∧ ((applyDBSCAN [] 0 (generateNetworkActivity (fun _ => 0))).filter
        (fun z => z.status = "overcrowded")).length = 0) :=
  have h0 : ∀ n, 0 ≤ (fun _ : ℕ => (0 : ℚ)) n ∧ (fun _ : ℕ => (0 : ℚ)) n < 1 :=
    fun _ => ⟨le_refl 0, by norm_num⟩
  ⟨h0, overcrowded_unreachable (fun _ => 0) h0 [] 0⟩
